import Mathlib

/- Shallow embedding of the core of the Confluence.md repository: the
retry/backoff wrapper and paginated child listing of
`src/confluence_md/client.py`, the `slugify` and `extract_metadata`
converters of `src/confluence_scraper/converter.py`, and the filename
resolution, page writing and recursive tree export of
`src/confluence_scraper/exporter.py`. -/

namespace ConfluenceMd

/-! ## Retry wrapper (`ConfluenceClient._retry_with_backoff`) -/

/-- An HTTP error response as seen by the retry wrapper:
`e.response.status_code` and `e.response.headers.get('Retry-After')`. -/
structure HResp where
  status : Nat
  retryAfter : Option String
deriving DecidableEq

/-- Outcome of one invocation of the wrapped callable `func`: success, a
`requests.exceptions.HTTPError` (whose `response` may be `None`), or any
other exception. -/
inductive Outcome (α : Type) where
  | ok (v : α)
  | httpErr (resp : Option HResp)
  | otherErr
deriving DecidableEq

/-- What `_retry_with_backoff` does overall: return a value or let one of
the two exception shapes propagate. -/
inductive RetryResult (α : Type) where
  | ok (v : α)
  | httpErr (resp : Option HResp)
  | otherErr
deriving DecidableEq

/-- `delays = [1, 2, 4]` from `ConfluenceClient._retry_with_backoff`. -/
def delays : List Nat := [1, 2, 4]

/-- Python `retry_after and retry_after.isdigit()` on an ASCII header
value: nonempty and consisting only of decimal digits. -/
def isAllDigits (s : String) : Bool := !s.data.isEmpty && s.data.all Char.isDigit

/-- Python `int(s)` on a digit-only string. -/
def parseNat (s : String) : Nat := s.data.foldl (fun n c => n * 10 + (c.toNat - 48)) 0

/-- The delay slept before a retry, from `_retry_with_backoff`: the
Retry-After header value when it is present, nonempty and digit-only,
otherwise `delays[min(attempt, len(delays) - 1)]`. -/
def applicableDelay (attempt : Nat) (r : HResp) : Nat :=
  match r.retryAfter with
  | some ra => if isAllDigits ra then parseNat ra else delays.getD (min attempt 2) 0
  | none => delays.getD (min attempt 2) 0

/-- The `while attempt < 4` loop of `_retry_with_backoff`, with the number
of remaining iterations (`4 - attempt`) made explicit as structural fuel
(`retry_with_backoff` starts it at `4`, `0`, so the fuel is positive
exactly when `attempt < 4`).  `f n` is the outcome of the `n`-th
invocation of the wrapped callable: the loop invokes it exactly once per
iteration and `attempt` counts the iterations.  Returns the overall
result, the list of back-off sleeps performed (in order), and the number
of invocations made.  `last` carries `last_exception`; when the loop
exhausts its iterations, `raise last_exception` re-raises it. -/
def retryLoop (f : Nat → Outcome α) : Nat → Nat → List Nat → Option (Option HResp) →
    RetryResult α × List Nat × Nat
  | 0, attempt, sleeps, last =>
    (match last with
     | some e => RetryResult.httpErr e
     | none => RetryResult.otherErr, sleeps, attempt)
  | fuel + 1, attempt, sleeps, _last =>
    match f attempt with
    | .ok v => (.ok v, sleeps, attempt + 1)
    | .otherErr => (.otherErr, sleeps, attempt + 1)
    | .httpErr none => (.httpErr none, sleeps, attempt + 1)
    | .httpErr (some r) =>
      if (r.status = 429 ∨ r.status = 503) ∧ attempt < 4 then
        retryLoop f fuel (attempt + 1) (sleeps ++ [applicableDelay attempt r]) (some (some r))
      else (.httpErr (some r), sleeps, attempt + 1)

/-- `ConfluenceClient._retry_with_backoff`: one initial attempt plus
retries, `while attempt < 4`. -/
def retry_with_backoff (f : Nat → Outcome α) : RetryResult α × List Nat × Nat :=
  retryLoop f 4 0 [] none

/-- The wrapped call of the C2 failing input: every attempt raises an
`HTTPError` with status 429 and no Retry-After header. -/
def c2AllRateLimited : Nat → Outcome Nat := fun _ => Outcome.httpErr (some ⟨429, none⟩)

/-- The per-retry delay as stated by claim C8: the Retry-After value is
used exactly when it is a POSITIVE integer count of seconds, otherwise the
schedule applies.  Stated from the claim's words, for comparison with
`applicableDelay` (which is translated from the code). -/
def claimedDelayC8 (attempt : Nat) (r : HResp) : Nat :=
  match r.retryAfter with
  | some ra =>
    if isAllDigits ra ∧ 0 < parseNat ra then parseNat ra else delays.getD (min attempt 2) 0
  | none => delays.getD (min attempt 2) 0

/-- C8 counterexample input: the first attempt is rate limited with header
`Retry-After: 0`, the second attempt succeeds. -/
def c8RetryAfterZero : Nat → Outcome Nat := fun a =>
  if a = 0 then Outcome.httpErr (some ⟨429, some "0"⟩) else Outcome.ok 7

/-- C8 witness input: the first attempt is rate limited with no
Retry-After header, the second attempt succeeds. -/
def c8NoHeader : Nat → Outcome Nat := fun a =>
  if a = 0 then Outcome.httpErr (some ⟨429, none⟩) else Outcome.ok 7

/-! ## Paginated child listing (`ConfluenceClient.get_child_pages`) -/

/-- A child page entry as consumed by the exporter (`child.get('id')`). -/
structure Child where
  id : Option String
deriving DecidableEq

/-- One page of results of `get_page_child_by_type`, as discriminated by
`get_child_pages`: a plain list, a dict (optional `results` key, and
whether `_links` contains `next`), or an unexpected type. -/
inductive ChildResp where
  | asList (items : List Child)
  | asDict (results : Option (List Child)) (hasNext : Bool)
  | unexpected
deriving DecidableEq

/-- The `while True` pagination loop of `get_child_pages`.  `fetch start`
is the (retry-wrapped) result of fetching one page of children at offset
`start`; `fuel` bounds the number of iterations so the loop is total.
Returns the propagated error or the accumulated children, together with
the `(start, limit)` arguments of the page fetches performed, or `none`
if the loop does not finish within `fuel` iterations. -/
def childPagesLoop (fetch : Nat → RetryResult ChildResp) (limit : Nat) :
    Nat → Nat → List Child → List (Nat × Nat) →
    Option (RetryResult (List Child) × List (Nat × Nat))
  | 0, _, _, _ => none
  | fuel + 1, start, acc, calls =>
    match fetch start with
    | .httpErr e => some (.httpErr e, calls ++ [(start, limit)])
    | .otherErr => some (.otherErr, calls ++ [(start, limit)])
    | .ok (ChildResp.asList items) =>
      if items.length < limit then some (.ok (acc ++ items), calls ++ [(start, limit)])
      else childPagesLoop fetch limit fuel (start + limit) (acc ++ items)
        (calls ++ [(start, limit)])
    | .ok (ChildResp.asDict results hasNext) =>
      if hasNext then
        childPagesLoop fetch limit fuel (start + limit)
          (match results with
            | some rs => acc ++ rs
            | none => acc)
          (calls ++ [(start, limit)])
      else some (.ok (match results with
            | some rs => acc ++ rs
            | none => acc),
        calls ++ [(start, limit)])
    | .ok ChildResp.unexpected => some (.ok acc, calls ++ [(start, limit)])

/-- `ConfluenceClient.get_child_pages`: paginated listing with
`limit = 100` starting at `start = 0`, each page fetched through
`_retry_with_backoff`.  `api start n` is the outcome of the `n`-th
attempt of the underlying `get_page_child_by_type` call at offset
`start`. -/
def get_child_pages (api : Nat → Nat → Outcome ChildResp) (fuel : Nat) :
    Option (RetryResult (List Child) × List (Nat × Nat)) :=
  childPagesLoop (fun start => (retry_with_backoff (api start)).1) 100 fuel 0 [] []

/-- The children contributed by one page of results: the list itself, the
`results` value of a dict (nothing if the key is absent), nothing for an
unexpected response. -/
def batchOf : ChildResp → List Child
  | .asList items => items
  | .asDict (some rs) _ => rs
  | .asDict none _ => []
  | .unexpected => []

/-- Whether the pagination loop continues after a given page of results,
for page size `limit`: a plain-list page continues exactly when it has at
least `limit` items, a dict-form page exactly when it reports a further
page, and an unexpected response never continues. -/
def continuesAfter (limit : Nat) : ChildResp → Bool
  | .asList items => decide (limit ≤ items.length)
  | .asDict _ hasNext => hasNext
  | .unexpected => false

/-- C7 counterexample API: offset 0 yields a dict-form page with a single
result and a further-page link, offset 100 a dict-form page with a single
result and no further page (every attempt succeeds immediately). -/
def c7ShortPageWithNext : Nat → Nat → Outcome ChildResp := fun start _ =>
  if start = 0 then Outcome.ok (ChildResp.asDict (some [⟨some "c1"⟩]) true)
  else if start = 100 then Outcome.ok (ChildResp.asDict (some [⟨some "c2"⟩]) false)
  else Outcome.ok ChildResp.unexpected

/-- C7 witness API: a single dict-form page with one result and no
further page. -/
def c7OnePage : Nat → Nat → Outcome ChildResp := fun _ _ =>
  Outcome.ok (ChildResp.asDict (some [⟨some "c1"⟩]) false)

/-! ## `slugify` (`converter.py`), over Python code points (`List Nat`) -/

/-- The code points of the fallback value `'untitled'`. -/
def untitledCp : List Nat := [117, 110, 116, 105, 116, 108, 101, 100]

/-- `encode('ascii', 'ignore')` keeps exactly the code points below 128. -/
def isAsciiCp (n : Nat) : Bool := decide (n < 128)

/-- Python regex `\w` on ASCII code points: `[a-zA-Z0-9_]`. -/
def isWordCp (n : Nat) : Bool :=
  decide ((48 ≤ n ∧ n ≤ 57) ∨ (65 ≤ n ∧ n ≤ 90) ∨ (97 ≤ n ∧ n ≤ 122) ∨ n = 95)

/-- Python regex `\s` on ASCII code points: space, `\t\n\v\f\r` and the
information separators 28-31 (the Unicode whitespace below 128). -/
def isSpaceCp (n : Nat) : Bool :=
  decide (n = 32 ∨ n = 9 ∨ n = 10 ∨ n = 11 ∨ n = 12 ∨ n = 13 ∨ (28 ≤ n ∧ n ≤ 31))

/-- `str.lower` on ASCII code points. -/
def lowerCp (n : Nat) : Nat := if 65 ≤ n ∧ n ≤ 90 then n + 32 else n

/-- A code point matched by `[-\s]`: hyphen (45) or whitespace. -/
def isHyphenSpace (n : Nat) : Bool := n == 45 || isSpaceCp n

/-- `re.sub(r'[-\s]+', '-', text)`: collapse every maximal run of hyphens
and whitespace into a single hyphen. -/
def collapseRuns : List Nat → List Nat
  | [] => []
  | [c] => if isHyphenSpace c then [45] else [c]
  | c :: d :: rest =>
    if isHyphenSpace c then
      if isHyphenSpace d then collapseRuns (d :: rest)
      else 45 :: collapseRuns (d :: rest)
    else c :: collapseRuns (d :: rest)

/-- `str.rstrip('-')`: drop every trailing hyphen. -/
def dropTrailingHyphens (l : List Nat) : List Nat :=
  (l.reverse.dropWhile (fun c => c == 45)).reverse

/-- `str.strip('-')`: drop every leading and trailing hyphen. -/
def stripHyphens (l : List Nat) : List Nat :=
  dropTrailingHyphens (l.dropWhile (fun c => c == 45))

/-- `slugify` from `converter.py`, over code-point sequences.  The call
`unicodedata.normalize('NFKD', text)` is kept abstract as the parameter
`nfkd` (the library's NFKD normalization, which is the identity on
pure-ASCII input); every later step is translated from the source:
`encode('ascii', 'ignore')`, `lower()`, `re.sub(r'[^\w\s-]', '', ...)`,
`re.sub(r'[-\s]+', '-', ...)`, `strip('-')`, truncation to 100 code
points followed by `rstrip('-')`, and the `'untitled'` fallback. -/
def slugify (nfkd : List Nat → List Nat) (text : List Nat) : List Nat :=
  let t1 := (nfkd text).filter isAsciiCp
  let t2 := t1.map lowerCp
  let t3 := t2.filter (fun c => isWordCp c || isSpaceCp c || c == 45)
  let t4 := stripHyphens (collapseRuns t3)
  let t5 := if 100 < t4.length then dropTrailingHyphens (t4.take 100) else t4
  if t5.isEmpty then untitledCp else t5

/-- The character set stated by claim C5: `[a-z0-9-]`. -/
def inClaimC5Set (n : Nat) : Bool :=
  decide ((97 ≤ n ∧ n ≤ 122) ∨ (48 ≤ n ∧ n ≤ 57) ∨ n = 45)

/-- The character set `slugify` actually produces: `[a-z0-9_-]` (Python
`\w` keeps the underscore, code point 95). -/
def inSlugSet (n : Nat) : Bool :=
  decide ((97 ≤ n ∧ n ≤ 122) ∨ (48 ≤ n ∧ n ≤ 57) ∨ n = 45 ∨ n = 95)

/-! ## Filename resolution and page writing (`exporter.py`) -/

/-- The collision loop of `_generate_unique_filename`: try `<slug>-2.md`,
`<slug>-3.md`, ... until a name not present in the directory is found.
`fuel` bounds the search; `_generate_unique_filename` passes enough fuel
for the directory contents given to it. -/
def uniqueNameLoop (existing : List String) (base_slug : String) : Nat → Nat → String
  | counter, 0 => base_slug ++ "-" ++ Nat.repr counter ++ ".md"
  | counter, fuel + 1 =>
    let filename := base_slug ++ "-" ++ Nat.repr counter ++ ".md"
    if existing.contains filename then uniqueNameLoop existing base_slug (counter + 1) fuel
    else filename

/-- `PageExporter._generate_unique_filename`, over the list of file names
already present in the target directory. -/
def generate_unique_filename (existing : List String) (base_slug : String) : String :=
  let filename := base_slug ++ ".md"
  if existing.contains filename then
    uniqueNameLoop existing base_slug 2 (existing.length + 1)
  else filename

/-- Python `filename.endswith('.md')`, over the character list. -/
def hasMdExt (f : String) : Bool := ['.', 'm', 'd'].isSuffixOf f.data

/-- `filename[:-3] if filename.endswith('.md') else filename`. -/
def stripMdExt (f : String) : String :=
  if hasMdExt f then ⟨f.data.take (f.data.length - 3)⟩ else f

/-- Result of `_write_page_file` on the abstract single-directory file
system: the returned stem (actual filename without `.md`), whether the
write was skipped, and the directory contents afterwards. -/
structure WriteOutcome where
  stem : String
  skipped : Bool
  existing : List String
deriving DecidableEq

/-- `PageExporter._write_page_file`, with the file system of the target
directory modelled as the list of names it contains.  Metadata extraction
and markdown rendering (pure, modelled separately) do not affect which
file is written or skipped, so the page is represented here by the slug
of its title; `mkdir` does not change the directory's file list. -/
def write_page_file (skip_existing : Bool) (existing : List String) (slug : String) :
    WriteOutcome :=
  let filename := generate_unique_filename existing slug
  if skip_existing && existing.contains filename then
    { stem := stripMdExt filename, skipped := true, existing := existing }
  else
    { stem := stripMdExt filename, skipped := false,
      existing := if existing.contains filename then existing else existing ++ [filename] }

/-! ## Metadata extraction (`converter.py`) -/

/-- `history.createdBy` of a page (`displayName` key). -/
structure CreatedBy where
  displayName : Option String
deriving DecidableEq

/-- `history` of a page (`createdBy` and `createdDate` keys). -/
structure HistoryObj where
  createdBy : Option CreatedBy
  createdDate : Option String
deriving DecidableEq

/-- `version` of a page (`when` key). -/
structure VersionObj where
  whenKey : Option String
deriving DecidableEq

/-- `space` of a page (`key` key). -/
structure SpaceObj where
  key : Option String
deriving DecidableEq

/-- `_links` of a page (`webui` key). -/
structure LinksObj where
  webui : Option String
deriving DecidableEq

/-- An entry of the `ancestors` array (`id` key). -/
structure Ancestor where
  id : Option String
deriving DecidableEq

/-- A Confluence page object as consumed by `extract_metadata`: every
field optional (absent and JSON-null are both modelled as `none`). -/
structure Page where
  id : Option String
  title : Option String
  space : Option SpaceObj
  history : Option HistoryObj
  version : Option VersionObj
  ancestors : Option (List Ancestor)
  links : Option LinksObj
deriving DecidableEq

/-- The fixed frontmatter key set produced by `extract_metadata`. -/
structure Metadata where
  title : Option String
  page_id : Option String
  space_key : Option String
  author : Option String
  created : Option String
  modified : Option String
  url : Option String
  parent_id : Option String
deriving DecidableEq

/-- Python `value or None` on a string-or-missing value: an empty (falsy)
string becomes `None`. -/
def orNone (o : Option String) : Option String :=
  match o with
  | some v => if v = "" then none else some v
  | none => none

/-- `extract_metadata(page, base_url)` from `converter.py`. -/
def extract_metadata (page : Page) (base_url : String) : Metadata :=
  { title := orNone page.title
    page_id := orNone page.id
    space_key := orNone (page.space.bind SpaceObj.key)
    author := orNone ((page.history.bind HistoryObj.createdBy).bind CreatedBy.displayName)
    created := orNone (page.history.bind HistoryObj.createdDate)
    modified := orNone (page.version.bind VersionObj.whenKey)
    url :=
      match page.links.bind LinksObj.webui with
      | some w => if w = "" then none else some (base_url ++ w)
      | none => none
    parent_id :=
      match page.ancestors with
      | some l =>
        if l = [] then none
        else
          match l.getLast? with
          | some a => orNone a.id
          | none => none
      | none => none }

/-- A metadata value that is not the empty string. -/
def nonEmptyVal : Option String → Bool
  | some s => decide (s ≠ "")
  | none => true

/-- No value of a metadata record is the empty string. -/
def noEmptyValues (m : Metadata) : Bool :=
  nonEmptyVal m.title && nonEmptyVal m.page_id && nonEmptyVal m.space_key &&
    nonEmptyVal m.author && nonEmptyVal m.created && nonEmptyVal m.modified &&
    nonEmptyVal m.url && nonEmptyVal m.parent_id

/-! ## Recursive tree export (`PageExporter.export_tree`) -/

/-- Events observable during `export_tree`: entering a node (one per
`export_tree` call), the two remote calls, and a completed file write. -/
inductive Ev where
  | visit (pid : String)
  | fetch (pid : String)
  | listChildren (pid : String)
  | wrote (dir : List String) (stem : String)
deriving DecidableEq

/-- The collaborators and configuration of `PageExporter.export_tree`,
with each fallible step as an `Except` over an error message:
`fetchPage` is `client.get_page`; `writePage` is `_write_page_file`
(metadata extraction, markdown conversion, filename resolution, `mkdir`
and the write, any of which can raise — on success it returns the actual
filename stem used for the child directory); `getChildren` is
`client.get_child_pages`.  Directories are lists of path components. -/
structure ExportEnv where
  maxDepth : Nat
  fetchPage : String → Except String Page
  writePage : List String → Page → Except String String
  getChildren : String → Except String (List Child)

/-- `if child_id:` — the child id is present and nonempty. -/
def childTruthy (c : Child) : Bool :=
  match c.id with
  | some s => !s.isEmpty
  | none => false

/-- `PageExporter.export_tree` with the recursion made structural on
`fuel`, which `export_tree` below instantiates with
`max_depth + 1 - depth`; the `depth >= max_depth` check keeps the
fuel-exhausted branch coherent (it is reached only when the depth check
would have failed the node anyway, and returns the same result).
Returns `(success_count, failure_count)` and the trace of events; the
fixed `_apply_rate_limit` sleeps are pure delays and are not recorded. -/
def exportTreeFuel (env : ExportEnv) : Nat → String → List String → Nat →
    (Nat × Nat) × List Ev
  | 0, pid, _, _ => ((0, 1), [Ev.visit pid])
  | fuel + 1, pid, dir, depth =>
    if env.maxDepth ≤ depth then ((0, 1), [Ev.visit pid])
    else
      match env.fetchPage pid with
      | .error _ => ((0, 1), [Ev.visit pid, Ev.fetch pid])
      | .ok page =>
        match env.writePage dir page with
        | .error _ => ((0, 1), [Ev.visit pid, Ev.fetch pid])
        | .ok stem =>
          match env.getChildren pid with
          | .error _ =>
            ((0, 1), [Ev.visit pid, Ev.fetch pid, Ev.wrote dir stem, Ev.listChildren pid])
          | .ok children =>
            let rs := (children.filter childTruthy).map
              (fun c => exportTreeFuel env fuel (c.id.getD "") (dir ++ [stem]) (depth + 1))
            ((1 + (rs.map (fun r => r.1.1)).sum, (rs.map (fun r => r.1.2)).sum),
              [Ev.visit pid, Ev.fetch pid, Ev.wrote dir stem, Ev.listChildren pid]
                ++ (rs.map (fun r => r.2)).flatten)

/-- `PageExporter.export_tree(root_page_id, parent_directory, depth)`. -/
def export_tree (env : ExportEnv) (pid : String) (dir : List String) (depth : Nat) :
    (Nat × Nat) × List Ev :=
  exportTreeFuel env (env.maxDepth + 1 - depth) pid dir depth

/-- Whether an event is a remote API call. -/
def isRemoteEv : Ev → Bool
  | .fetch _ => true
  | .listChildren _ => true
  | _ => false

/-- Whether an event marks a visited node. -/
def isVisit : Ev → Bool
  | .visit _ => true
  | _ => false

/-- The page ids of the nodes visited in a trace. -/
def visitedIds (tr : List Ev) : List String :=
  tr.filterMap (fun e =>
    match e with
    | Ev.visit p => some p
    | _ => none)

/-- Whether processing the node itself fails at some stage: the fetch,
the write step (metadata, markdown, filename resolution or the write
itself), or the child listing. -/
def nodeFails (env : ExportEnv) (pid : String) (dir : List String) : Bool :=
  match env.fetchPage pid with
  | .error _ => true
  | .ok page =>
    match env.writePage dir page with
    | .error _ => true
    | .ok _ =>
      match env.getChildren pid with
      | .error _ => true
      | .ok _ => false

/-- `env` with every successful child listing filtered down to the
children with a truthy id. -/
def filterChildrenEnv (env : ExportEnv) : ExportEnv :=
  { env with getChildren := fun pid => (env.getChildren pid).map (fun l => l.filter childTruthy) }

/-- A page with every optional field absent. -/
def emptyPage : Page := ⟨none, none, none, none, none, none, none⟩

/-- C6 witness environment: `max_depth = 0`, every collaborator fails. -/
def c6Env : ExportEnv :=
  { maxDepth := 0
    fetchPage := fun _ => .error "unreachable"
    writePage := fun _ _ => .error "unreachable"
    getChildren := fun _ => .error "unreachable" }

/-- C3 witness environment: the fetch and the write succeed (the write
returns stem `"t"`), then the child listing fails. -/
def c3Env : ExportEnv :=
  { maxDepth := 1
    fetchPage := fun _ => .ok emptyPage
    writePage := fun _ _ => .ok "t"
    getChildren := fun _ => .error "boom" }

/-! ## Theorems -/

/-- Sanity check from the spec's testable properties:
`slugify("Hello, World!") == "hello-world"`. -/
example :
    slugify (fun s => s)
      [72, 101, 108, 108, 111, 44, 32, 87, 111, 114, 108, 100, 33]
      = [104, 101, 108, 108, 111, 45, 119, 111, 114, 108, 100] := by decide

/-- Sanity check: `slugify("   ")` yields `"untitled"`. -/
example : slugify (fun s => s) [32, 32, 32] = untitledCp := by decide

/-- C2 fails on the code: with every attempt failing with HTTP 429,
`_retry_with_backoff` makes exactly 4 attempts but performs FOUR back-off
sleeps (1s, 2s, 4s and one more 4s sleep after the final failed attempt)
before propagating the failure.  The guard `attempt < 4` inside the
exception handler never blocks the fourth sleep, contradicting the
claimed exactly-3-sleeps, propagate-immediately behaviour and the
function's own docstring, which lists the delays as `1s, 2s, 4s`. -/
theorem c2_retry_exhaustion_sleeps_four_times :
    retry_with_backoff c2AllRateLimited
      = (RetryResult.httpErr (some ⟨429, none⟩), [1, 2, 4, 4], 4) := by
  decide

/-- C1 fails on the code: re-exporting a page titled `t` into a directory
that already holds its file `t.md`, with skip-existing enabled, does not
skip anything.  `_generate_unique_filename` returns the first name NOT on
disk (`t-2.md`), so the `skip_existing and filepath.exists()` check never
fires and a new file `t-2.md` is written; the claim says no new file is
written and the node's write is skipped. -/
theorem c1_skip_existing_rerun_writes_new_file :
    write_page_file true ["t.md"] "t"
      = { stem := "t-2", skipped := false, existing := ["t.md", "t-2.md"] } := by
  decide

/-- C5 counterexample: `slugify("a_b") = "a_b"` (NFKD is the identity on
this pure-ASCII input) keeps the underscore, code point 95, which lies
outside the claimed character set `[a-z0-9-]`. -/
theorem c5_counterexample :
    slugify (fun s => s) [97, 95, 98] = [97, 95, 98] ∧
      ([97, 95, 98].all inClaimC5Set) = false := by
  decide

/-- C7 counterexample: a dict-form first page with a single result (fewer
than the page size 100) but with a further-page link.  Under the claim's
stopping rule the accumulation would stop after one fetch, with one
child; the code continues to the next offset, performs a second fetch and
returns both children. -/
theorem c7_counterexample :
    get_child_pages c7ShortPageWithNext 3
      = some (RetryResult.ok [⟨some "c1"⟩, ⟨some "c2"⟩], [(0, 100), (100, 100)]) ∧
      ([(0, 100), (100, 100)] : List (Nat × Nat)) ≠ [(0, 100)] := by
  decide

/-- C6: `export_tree` called with `depth >= max_depth` returns `(0, 1)`
and its trace is the bare visit of the node — in particular it contains
no remote call (no fetch and no child listing is attempted). -/
theorem c6_depth_limit (env : ExportEnv) (pid : String) (dir : List String) (depth : Nat)
    (h : env.maxDepth ≤ depth) :
    export_tree env pid dir depth = ((0, 1), [Ev.visit pid]) ∧
      (export_tree env pid dir depth).2.all (fun e => !isRemoteEv e) = true := by
  cases hf : env.maxDepth + 1 - depth with
  | zero => simp [export_tree, exportTreeFuel, hf, isRemoteEv]
  | succ n => simp [export_tree, exportTreeFuel, hf, h, isRemoteEv]

/-- C6 witness: at `max_depth = 0` and `depth = 0` the depth bound applies
and the node fails without any remote call. -/
theorem c6_depth_limit_witness :
    c6Env.maxDepth ≤ 0 ∧
      (export_tree c6Env "p" [] 0 = ((0, 1), [Ev.visit "p"]) ∧
        (export_tree c6Env "p" [] 0).2.all (fun e => !isRemoteEv e) = true) :=
  ⟨Nat.le_refl 0, c6_depth_limit c6Env "p" [] 0 (Nat.le_refl 0)⟩

/-- Helper: the length of a filtered flattened list is the sum of the
lengths of the filtered pieces. -/
theorem length_filter_flatten {β : Type} (p : β → Bool) :
    ∀ L : List (List β),
      (L.flatten.filter p).length = (L.map (fun l => (l.filter p).length)).sum
  | [] => by simp
  | l :: L => by
      rw [List.flatten_cons, List.filter_append, List.length_append,
        length_filter_flatten p L, List.map_cons, List.sum_cons]

/-- Unfolding `exportTreeFuel` at positive fuel when the depth bound is
reached. -/
theorem exportTreeFuel_depth (env : ExportEnv) (fuel : Nat) (pid : String) (dir : List String)
    (depth : Nat) (h : env.maxDepth ≤ depth) :
    exportTreeFuel env (fuel + 1) pid dir depth = ((0, 1), [Ev.visit pid]) := by
  unfold exportTreeFuel
  simp only [if_pos h]

/-- Unfolding `exportTreeFuel` when the fetch fails. -/
theorem exportTreeFuel_fetch_err (env : ExportEnv) (fuel : Nat) (pid : String)
    (dir : List String) (depth : Nat) (e : String) (h : ¬env.maxDepth ≤ depth)
    (hf : env.fetchPage pid = Except.error e) :
    exportTreeFuel env (fuel + 1) pid dir depth = ((0, 1), [Ev.visit pid, Ev.fetch pid]) := by
  unfold exportTreeFuel
  simp only [if_neg h, hf]

/-- Unfolding `exportTreeFuel` when the write step fails. -/
theorem exportTreeFuel_write_err (env : ExportEnv) (fuel : Nat) (pid : String)
    (dir : List String) (depth : Nat) (page : Page) (e : String) (h : ¬env.maxDepth ≤ depth)
    (hf : env.fetchPage pid = Except.ok page) (hw : env.writePage dir page = Except.error e) :
    exportTreeFuel env (fuel + 1) pid dir depth = ((0, 1), [Ev.visit pid, Ev.fetch pid]) := by
  unfold exportTreeFuel
  simp only [if_neg h, hf, hw]

/-- Unfolding `exportTreeFuel` when the child listing fails (after the
node's own file was written). -/
theorem exportTreeFuel_children_err (env : ExportEnv) (fuel : Nat) (pid : String)
    (dir : List String) (depth : Nat) (page : Page) (stem : String) (e : String)
    (h : ¬env.maxDepth ≤ depth) (hf : env.fetchPage pid = Except.ok page)
    (hw : env.writePage dir page = Except.ok stem)
    (hc : env.getChildren pid = Except.error e) :
    exportTreeFuel env (fuel + 1) pid dir depth
      = ((0, 1), [Ev.visit pid, Ev.fetch pid, Ev.wrote dir stem, Ev.listChildren pid]) := by
  unfold exportTreeFuel
  simp only [if_neg h, hf, hw, hc]

/-- Unfolding `exportTreeFuel` when every stage of the node itself
succeeds. -/
theorem exportTreeFuel_ok (env : ExportEnv) (fuel : Nat) (pid : String) (dir : List String)
    (depth : Nat) (page : Page) (stem : String) (children : List Child)
    (h : ¬env.maxDepth ≤ depth) (hf : env.fetchPage pid = Except.ok page)
    (hw : env.writePage dir page = Except.ok stem)
    (hc : env.getChildren pid = Except.ok children) :
    exportTreeFuel env (fuel + 1) pid dir depth
      = ((1 + (((children.filter childTruthy).map
              (fun c => exportTreeFuel env fuel (c.id.getD "") (dir ++ [stem]) (depth + 1))).map
            (fun r => r.1.1)).sum,
          (((children.filter childTruthy).map
              (fun c => exportTreeFuel env fuel (c.id.getD "") (dir ++ [stem]) (depth + 1))).map
            (fun r => r.1.2)).sum),
        [Ev.visit pid, Ev.fetch pid, Ev.wrote dir stem, Ev.listChildren pid]
          ++ (((children.filter childTruthy).map
              (fun c => exportTreeFuel env fuel (c.id.getD "") (dir ++ [stem]) (depth + 1))).map
            (fun r => r.2)).flatten) := by
  conv_lhs => rw [exportTreeFuel]
  simp only [if_neg h, hf, hw, hc]

/-- Helper: pointwise `a x + b x = c x` lifts to sums over maps. -/
theorem sum_map_add_eq {γ : Type} (a b c : γ → Nat) :
    ∀ l : List γ, (∀ x ∈ l, a x + b x = c x) →
      (l.map a).sum + (l.map b).sum = (l.map c).sum
  | [], _ => by simp
  | x :: l, h => by
      have hx := h x (List.mem_cons_self x l)
      have hl := sum_map_add_eq a b c l (fun y hy => h y (List.mem_cons_of_mem x hy))
      simp only [List.map_cons, List.sum_cons]
      omega

/-- Helper for C4, by induction on the fuel: success plus failure counts
equal the number of visit events in the trace. -/
theorem exportTreeFuel_counts (env : ExportEnv) :
    ∀ (fuel : Nat) (pid : String) (dir : List String) (depth : Nat),
      (exportTreeFuel env fuel pid dir depth).1.1 + (exportTreeFuel env fuel pid dir depth).1.2
        = ((exportTreeFuel env fuel pid dir depth).2.filter isVisit).length
  | 0, pid, dir, depth => by simp [exportTreeFuel, isVisit]
  | fuel + 1, pid, dir, depth => by
      by_cases h : env.maxDepth ≤ depth
      · rw [exportTreeFuel_depth env fuel pid dir depth h]
        simp [isVisit]
      · cases hfetch : env.fetchPage pid with
        | error e =>
          rw [exportTreeFuel_fetch_err env fuel pid dir depth e h hfetch]
          simp [isVisit]
        | ok page =>
          cases hw : env.writePage dir page with
          | error e =>
            rw [exportTreeFuel_write_err env fuel pid dir depth page e h hfetch hw]
            simp [isVisit]
          | ok stem =>
            cases hc : env.getChildren pid with
            | error e =>
              rw [exportTreeFuel_children_err env fuel pid dir depth page stem e h hfetch hw hc]
              simp [isVisit]
            | ok children =>
              rw [exportTreeFuel_ok env fuel pid dir depth page stem children h hfetch hw hc]
              have hsum := sum_map_add_eq
                (fun c : Child =>
                  (exportTreeFuel env fuel (c.id.getD "") (dir ++ [stem]) (depth + 1)).1.1)
                (fun c : Child =>
                  (exportTreeFuel env fuel (c.id.getD "") (dir ++ [stem]) (depth + 1)).1.2)
                (fun c : Child =>
                  (((exportTreeFuel env fuel (c.id.getD "") (dir ++ [stem]) (depth + 1)).2).filter
                    isVisit).length)
                (children.filter childTruthy)
                (fun c _ => exportTreeFuel_counts env fuel (c.id.getD "") (dir ++ [stem]) (depth + 1))
              have hpre : ([Ev.visit pid, Ev.fetch pid, Ev.wrote dir stem,
                  Ev.listChildren pid].filter isVisit) = [Ev.visit pid] := rfl
              rw [List.filter_append, List.length_append, length_filter_flatten, hpre]
              simp only [List.map_map, Function.comp_def, List.length_cons, List.length_nil]
              omega

/-- C4: for every call of `export_tree`, the returned pair of (Nat, hence
non-negative) counts sums to the number of nodes actually visited in the
subtree — one visit event is recorded per `export_tree` call, and a
failed node records only its own visit (its children are never called). -/
theorem c4_counts (env : ExportEnv) (pid : String) (dir : List String) (depth : Nat) :
    (export_tree env pid dir depth).1.1 + (export_tree env pid dir depth).1.2
      = ((export_tree env pid dir depth).2.filter isVisit).length :=
  exportTreeFuel_counts env (env.maxDepth + 1 - depth) pid dir depth

/-- C3: when any stage of a node's own processing fails (the fetch, the
write step — metadata, markdown, filename resolution, write — or the
child listing), `export_tree` catches the error at that node's level,
returns exactly `(0, 1)`, and visits nothing below the node: the visited
ids of the whole call are just `[pid]`.  In particular, when the child
listing fails after the node's own file was written, the call still
reports `(0, 1)` and the written file earns no success credit. -/
theorem c3_node_error (env : ExportEnv) (pid : String) (dir : List String) (depth : Nat)
    (hd : depth < env.maxDepth) (hf : nodeFails env pid dir = true) :
    (export_tree env pid dir depth).1 = (0, 1) ∧
      visitedIds (export_tree env pid dir depth).2 = [pid] := by
  obtain ⟨k, hk⟩ : ∃ k, env.maxDepth + 1 - depth = k + 1 := ⟨env.maxDepth - depth, by omega⟩
  have hd' : ¬env.maxDepth ≤ depth := by omega
  unfold export_tree
  rw [hk]
  unfold nodeFails at hf
  cases hfetch : env.fetchPage pid with
  | error e =>
    rw [exportTreeFuel_fetch_err env k pid dir depth e hd' hfetch]
    simp [visitedIds]
  | ok page =>
    simp only [hfetch] at hf
    cases hw : env.writePage dir page with
    | error e =>
      rw [exportTreeFuel_write_err env k pid dir depth page e hd' hfetch hw]
      simp [visitedIds]
    | ok stem =>
      simp only [hw] at hf
      cases hc : env.getChildren pid with
      | error e =>
        rw [exportTreeFuel_children_err env k pid dir depth page stem e hd' hfetch hw hc]
        simp [visitedIds]
      | ok children =>
        simp only [hc] at hf
        exact Bool.noConfusion hf

/-- C3 witness: fetch and write succeed (the file is written, stem `t`),
then the child listing fails; the call reports `(0, 1)` and visits only
the node itself, although the trace shows the completed write. -/
theorem c3_node_error_witness :
    0 < c3Env.maxDepth ∧ nodeFails c3Env "p" [] = true ∧
      ((export_tree c3Env "p" [] 0).1 = (0, 1) ∧
        visitedIds (export_tree c3Env "p" [] 0).2 = ["p"]) ∧
      Ev.wrote [] "t" ∈ (export_tree c3Env "p" [] 0).2 :=
  ⟨by decide, by decide, c3_node_error c3Env "p" [] 0 (by decide) (by decide), by decide⟩

/-- Helper for C9, by induction on the fuel: filtering every child
listing down to the truthy-id children changes nothing. -/
theorem exportTreeFuel_filterChildren (env : ExportEnv) :
    ∀ (fuel : Nat) (pid : String) (dir : List String) (depth : Nat),
      exportTreeFuel (filterChildrenEnv env) fuel pid dir depth
        = exportTreeFuel env fuel pid dir depth
  | 0, _, _, _ => rfl
  | fuel + 1, pid, dir, depth => by
      have hmd : (filterChildrenEnv env).maxDepth = env.maxDepth := rfl
      by_cases h : env.maxDepth ≤ depth
      · rw [exportTreeFuel_depth (filterChildrenEnv env) fuel pid dir depth (by rw [hmd]; exact h),
          exportTreeFuel_depth env fuel pid dir depth h]
      · have h2 : ¬(filterChildrenEnv env).maxDepth ≤ depth := by rw [hmd]; exact h
        cases hfetch : env.fetchPage pid with
        | error e =>
          rw [exportTreeFuel_fetch_err (filterChildrenEnv env) fuel pid dir depth e h2 hfetch,
            exportTreeFuel_fetch_err env fuel pid dir depth e h hfetch]
        | ok page =>
          cases hw : env.writePage dir page with
          | error e =>
            rw [exportTreeFuel_write_err (filterChildrenEnv env) fuel pid dir depth page e h2
                hfetch hw,
              exportTreeFuel_write_err env fuel pid dir depth page e h hfetch hw]
          | ok stem =>
            cases hc : env.getChildren pid with
            | error e =>
              have hc2 : (filterChildrenEnv env).getChildren pid = Except.error e := by
                simp [filterChildrenEnv, hc, Except.map]
              rw [exportTreeFuel_children_err (filterChildrenEnv env) fuel pid dir depth page
                  stem e h2 hfetch hw hc2,
                exportTreeFuel_children_err env fuel pid dir depth page stem e h hfetch hw hc]
            | ok children =>
              have hc2 : (filterChildrenEnv env).getChildren pid
                  = Except.ok (children.filter childTruthy) := by
                simp [filterChildrenEnv, hc, Except.map]
              rw [exportTreeFuel_ok (filterChildrenEnv env) fuel pid dir depth page stem
                  (children.filter childTruthy) h2 hfetch hw hc2,
                exportTreeFuel_ok env fuel pid dir depth page stem children h hfetch hw hc]
              have hfix : ∀ c : Child,
                  exportTreeFuel (filterChildrenEnv env) fuel (c.id.getD "")
                      (dir ++ [stem]) (depth + 1)
                    = exportTreeFuel env fuel (c.id.getD "") (dir ++ [stem]) (depth + 1) :=
                fun c =>
                  exportTreeFuel_filterChildren env fuel (c.id.getD "") (dir ++ [stem]) (depth + 1)
              simp only [List.filter_filter, Bool.and_self, hfix]

/-- C9: children whose id is missing, null or empty are silently dropped:
replacing every successful child listing by its truthy-id sublist leaves
the result of `export_tree` — counts and full event trace — unchanged, so
such entries are never recursed into and contribute to neither count. -/
theorem c9_falsy_children_dropped (env : ExportEnv) (pid : String) (dir : List String)
    (depth : Nat) :
    export_tree (filterChildrenEnv env) pid dir depth = export_tree env pid dir depth := by
  unfold export_tree
  exact exportTreeFuel_filterChildren env (env.maxDepth + 1 - depth) pid dir depth

/-- Unfolding `retryLoop` on a successful attempt. -/
theorem retryLoop_ok {α : Type} (f : Nat → Outcome α) (fuel attempt : Nat) (sleeps : List Nat)
    (last : Option (Option HResp)) (v : α) (hf : f attempt = Outcome.ok v) :
    retryLoop f (fuel + 1) attempt sleeps last = (RetryResult.ok v, sleeps, attempt + 1) := by
  conv_lhs => rw [retryLoop]
  simp only [hf]

/-- Unfolding `retryLoop` on a non-HTTP exception. -/
theorem retryLoop_other {α : Type} (f : Nat → Outcome α) (fuel attempt : Nat) (sleeps : List Nat)
    (last : Option (Option HResp)) (hf : f attempt = Outcome.otherErr) :
    retryLoop f (fuel + 1) attempt sleeps last = (RetryResult.otherErr, sleeps, attempt + 1) := by
  conv_lhs => rw [retryLoop]
  simp only [hf]

/-- Unfolding `retryLoop` on an HTTP error without a response. -/
theorem retryLoop_noResp {α : Type} (f : Nat → Outcome α) (fuel attempt : Nat) (sleeps : List Nat)
    (last : Option (Option HResp)) (hf : f attempt = Outcome.httpErr none) :
    retryLoop f (fuel + 1) attempt sleeps last = (RetryResult.httpErr none, sleeps, attempt + 1) := by
  conv_lhs => rw [retryLoop]
  simp only [hf]

/-- Unfolding `retryLoop` on a retryable HTTP error. -/
theorem retryLoop_retry {α : Type} (f : Nat → Outcome α) (fuel attempt : Nat) (sleeps : List Nat)
    (last : Option (Option HResp)) (r : HResp) (hf : f attempt = Outcome.httpErr (some r))
    (hcond : (r.status = 429 ∨ r.status = 503) ∧ attempt < 4) :
    retryLoop f (fuel + 1) attempt sleeps last
      = retryLoop f fuel (attempt + 1) (sleeps ++ [applicableDelay attempt r]) (some (some r)) := by
  conv_lhs => rw [retryLoop]
  simp only [hf, if_pos hcond]

/-- Unfolding `retryLoop` on a non-retryable HTTP error with a response. -/
theorem retryLoop_raise {α : Type} (f : Nat → Outcome α) (fuel attempt : Nat) (sleeps : List Nat)
    (last : Option (Option HResp)) (r : HResp) (hf : f attempt = Outcome.httpErr (some r))
    (hcond : ¬((r.status = 429 ∨ r.status = 503) ∧ attempt < 4)) :
    retryLoop f (fuel + 1) attempt sleeps last
      = (RetryResult.httpErr (some r), sleeps, attempt + 1) := by
  conv_lhs => rw [retryLoop]
  simp only [hf, if_neg hcond]

/-- Helper for C8, the loop invariant of `retryLoop`: every recorded sleep
of index `i` was caused by a retryable HTTP error on attempt `i`, with the
delay `applicableDelay i`. -/
theorem retryLoop_sleeps_spec {α : Type} (f : Nat → Outcome α) :
    ∀ (fuel attempt : Nat) (sleeps : List Nat) (last : Option (Option HResp)),
      sleeps.length = attempt →
      (∀ j, j < sleeps.length →
        ∃ r : HResp, f j = Outcome.httpErr (some r) ∧ (r.status = 429 ∨ r.status = 503) ∧
          sleeps[j]? = some (applicableDelay j r)) →
      ∀ i, i < (retryLoop f fuel attempt sleeps last).2.1.length →
        ∃ r : HResp, f i = Outcome.httpErr (some r) ∧ (r.status = 429 ∨ r.status = 503) ∧
          (retryLoop f fuel attempt sleeps last).2.1[i]? = some (applicableDelay i r)
  | 0, attempt, sleeps, last => fun _ hprev i hi => hprev i hi
  | fuel + 1, attempt, sleeps, last => by
      intro hlen hprev i hi
      cases hf : f attempt with
      | ok v =>
        rw [retryLoop_ok f fuel attempt sleeps last v hf] at hi ⊢
        exact hprev i hi
      | otherErr =>
        rw [retryLoop_other f fuel attempt sleeps last hf] at hi ⊢
        exact hprev i hi
      | httpErr resp =>
        cases resp with
        | none =>
          rw [retryLoop_noResp f fuel attempt sleeps last hf] at hi ⊢
          exact hprev i hi
        | some r =>
          by_cases hcond : (r.status = 429 ∨ r.status = 503) ∧ attempt < 4
          · rw [retryLoop_retry f fuel attempt sleeps last r hf hcond] at hi ⊢
            refine retryLoop_sleeps_spec f fuel (attempt + 1)
              (sleeps ++ [applicableDelay attempt r]) (some (some r)) (by simp [hlen]) ?_ i hi
            intro j hj
            rw [List.length_append, hlen] at hj
            by_cases hjlt : j < sleeps.length
            · obtain ⟨r', h1, h2, h3⟩ := hprev j hjlt
              exact ⟨r', h1, h2, by rw [List.getElem?_append_left hjlt]; exact h3⟩
            · have hje : j = attempt := by simp at hj; omega
              subst hje
              refine ⟨r, hf, hcond.1, ?_⟩
              rw [← hlen, List.getElem?_concat_length]
          · rw [retryLoop_raise f fuel attempt sleeps last r hf hcond] at hi ⊢
            exact hprev i hi

/-- C8 (amended): every back-off sleep performed by `_retry_with_backoff`
is caused by a retryable (429/503) HTTP error on the attempt of the same
index, and its delay is the Retry-After header value whenever that header
is a nonempty digit-only string — including `"0"` — and otherwise the
schedule `delays[min(attempt, 2)]`, i.e. 1s for the 1st retry, 2s for the
2nd, 4s for the 3rd and later. -/
theorem c8_sleep_delays {α : Type} (f : Nat → Outcome α) (i : Nat)
    (hi : i < (retry_with_backoff f).2.1.length) :
    ∃ r : HResp, f i = Outcome.httpErr (some r) ∧ (r.status = 429 ∨ r.status = 503) ∧
      (retry_with_backoff f).2.1[i]? = some (applicableDelay i r) :=
  retryLoop_sleeps_spec f 4 0 [] none rfl (fun j hj => absurd hj (by simp)) i hi

/-- C8 witness: first attempt rate limited without a Retry-After header,
second attempt succeeds; the single recorded sleep is the schedule's 1s. -/
theorem c8_sleep_delays_witness :
    0 < (retry_with_backoff c8NoHeader).2.1.length ∧
      (∃ r : HResp, c8NoHeader 0 = Outcome.httpErr (some r) ∧
        (r.status = 429 ∨ r.status = 503) ∧
        (retry_with_backoff c8NoHeader).2.1[0]? = some (applicableDelay 0 r)) :=
  ⟨by decide, c8_sleep_delays c8NoHeader 0 (by decide)⟩

/-- C8 counterexample: with `Retry-After: 0` on the first attempt the code
sleeps for 0 seconds, although `"0"` is not a positive count of seconds —
the claim demands the schedule delay of 1s in that case. -/
theorem c8_counterexample :
    (retry_with_backoff c8RetryAfterZero).2.1 = [0] ∧
      claimedDelayC8 0 ⟨429, some "0"⟩ = 1 ∧
      ((retry_with_backoff c8RetryAfterZero).2.1
        ≠ [claimedDelayC8 0 ⟨429, some "0"⟩]) := by
  refine ⟨by decide, by decide, by decide⟩

/-- Helper: dropping the head of a list with a nonempty tail keeps the
last element. -/
theorem getLast?_cons_of_ne_nil {γ : Type} (a : γ) (l : List γ) (h : l ≠ []) :
    (a :: l).getLast? = l.getLast? := by
  cases l with
  | nil => exact absurd rfl h
  | cons b t => exact List.getLast?_cons_cons

/-- Helper for C7: characterization of a successful run of the pagination
loop.  There is a nonempty sequence of page responses such that the
`(start, limit)` calls step by `limit` from `start` with the constant
page size, each response is what the fetch returned at its offset, the
output is the concatenation of the batches in accumulation order, every
response before the last satisfies its continuation condition and the
last does not. -/
theorem childPagesLoop_ok_spec (fetch : Nat → RetryResult ChildResp) (limit : Nat) :
    ∀ (fuel start : Nat) (acc : List Child) (calls0 : List (Nat × Nat))
      (out : List Child) (calls : List (Nat × Nat)),
      childPagesLoop fetch limit fuel start acc calls0 = some (RetryResult.ok out, calls) →
      ∃ rs : List ChildResp, rs ≠ [] ∧
        calls = calls0 ++ (List.range rs.length).map (fun i => (start + limit * i, limit)) ∧
        (∀ i, i < rs.length →
          fetch (start + limit * i) = RetryResult.ok (rs.getD i ChildResp.unexpected)) ∧
        out = acc ++ (rs.map batchOf).flatten ∧
        (∀ i, i + 1 < rs.length →
          continuesAfter limit (rs.getD i ChildResp.unexpected) = true) ∧
        continuesAfter limit (rs.getLast?.getD ChildResp.unexpected) = false
  | 0, start, acc, calls0, out, calls => by
      intro h
      exact absurd h (by simp [childPagesLoop])
  | fuel + 1, start, acc, calls0, out, calls => by
      intro h
      rw [childPagesLoop] at h
      split at h
      · simp at h
      · simp at h
      · rename_i items heq
        by_cases hlt : items.length < limit
        · rw [if_pos hlt] at h
          simp only [Option.some.injEq, Prod.mk.injEq, RetryResult.ok.injEq] at h
          obtain ⟨hout, hcalls⟩ := h
          subst hout hcalls
          refine ⟨[ChildResp.asList items], by simp, by simp [List.range_succ], ?_,
            by simp [batchOf], ?_, ?_⟩
          · intro i hi
            cases i with
            | zero => simpa using heq
            | succ j => simp at hi
          · intro i hi
            simp at hi
          · simp only [List.getLast?_singleton, Option.getD_some, continuesAfter]
            simp only [decide_eq_false_iff_not]
            omega
        · rw [if_neg hlt] at h
          obtain ⟨rs', hne, hcalls, hfetchAll, hout, hcont, hlast⟩ :=
            childPagesLoop_ok_spec fetch limit fuel (start + limit) (acc ++ items)
              (calls0 ++ [(start, limit)]) out calls h
          have hfun : ((fun i => (start + limit * i, limit)) ∘ Nat.succ)
              = (fun i => (start + limit + limit * i, limit)) :=
            funext fun i => by
              simp only [Function.comp_apply, Prod.mk.injEq]
              exact ⟨by rw [Nat.mul_succ]; omega, trivial⟩
          refine ⟨ChildResp.asList items :: rs', by simp, ?_, ?_, ?_, ?_, ?_⟩
          · rw [hcalls, List.length_cons, List.range_succ_eq_map, List.map_cons,
              List.map_map, hfun]
            simp
          · intro i hi
            cases i with
            | zero => simpa using heq
            | succ j =>
              simp only [List.getD_cons_succ]
              have hj : j < rs'.length := by simp at hi; omega
              have harith : start + limit * (j + 1) = start + limit + limit * j := by ring
              rw [harith]
              exact hfetchAll j hj
          · rw [hout]
            simp [batchOf]
          · intro i hi
            cases i with
            | zero =>
              simp only [List.getD_cons_zero, continuesAfter, decide_eq_true_eq]
              omega
            | succ j =>
              simp only [List.getD_cons_succ]
              exact hcont j (by simp at hi; omega)
          · rw [getLast?_cons_of_ne_nil _ _ hne]
            exact hlast
      · rename_i results hasNext heq
        cases hasNext with
        | false =>
          rw [if_neg (by simp)] at h
          simp only [Option.some.injEq, Prod.mk.injEq, RetryResult.ok.injEq] at h
          obtain ⟨hout, hcalls⟩ := h
          subst hout hcalls
          refine ⟨[ChildResp.asDict results false], by simp, by simp [List.range_succ],
            ?_, ?_, ?_, ?_⟩
          · intro i hi
            cases i with
            | zero => simpa using heq
            | succ j => simp at hi
          · cases results with
            | none => simp [batchOf]
            | some rs0 => simp [batchOf]
          · intro i hi
            simp at hi
          · simp [continuesAfter]
        | true =>
          rw [if_pos rfl] at h
          obtain ⟨rs', hne, hcalls, hfetchAll, hout, hcont, hlast⟩ :=
            childPagesLoop_ok_spec fetch limit fuel (start + limit) _
              (calls0 ++ [(start, limit)]) out calls h
          have hfun : ((fun i => (start + limit * i, limit)) ∘ Nat.succ)
              = (fun i => (start + limit + limit * i, limit)) :=
            funext fun i => by
              simp only [Function.comp_apply, Prod.mk.injEq]
              exact ⟨by rw [Nat.mul_succ]; omega, trivial⟩
          refine ⟨ChildResp.asDict results true :: rs', by simp, ?_, ?_, ?_, ?_, ?_⟩
          · rw [hcalls, List.length_cons, List.range_succ_eq_map, List.map_cons,
              List.map_map, hfun]
            simp
          · intro i hi
            cases i with
            | zero => simpa using heq
            | succ j =>
              simp only [List.getD_cons_succ]
              have hj : j < rs'.length := by simp at hi; omega
              have harith : start + limit * (j + 1) = start + limit + limit * j := by ring
              rw [harith]
              exact hfetchAll j hj
          · rw [hout]
            cases results with
            | none => simp [batchOf]
            | some rs0 => simp [batchOf]
          · intro i hi
            cases i with
            | zero => simp [continuesAfter]
            | succ j =>
              simp only [List.getD_cons_succ]
              exact hcont j (by simp at hi; omega)
          · rw [getLast?_cons_of_ne_nil _ _ hne]
            exact hlast
      · rename_i heq
        simp only [Option.some.injEq, Prod.mk.injEq, RetryResult.ok.injEq] at h
        obtain ⟨hout, hcalls⟩ := h
        subst hout hcalls
        refine ⟨[ChildResp.unexpected], by simp, by simp [List.range_succ], ?_,
          by simp [batchOf], ?_, ?_⟩
        · intro i hi
          cases i with
          | zero => simpa using heq
          | succ j => simp at hi
        · intro i hi
          simp at hi
        · simp [continuesAfter]

/-- C7 (amended): a terminating successful run of `get_child_pages`
performs its page fetches with the fixed page size 100 at offsets 0, 100,
200, ..., each one through the retry wrapper `_retry_with_backoff`,
accumulates the batches of the responses in order (possibly zero
children), and stops at the first response that does not continue:
a plain-list page with fewer results than the page size, a dict-form
listing reporting no further page, or an unrecognized response shape. -/
theorem c7_pagination (api : Nat → Nat → Outcome ChildResp) (fuel : Nat)
    (out : List Child) (calls : List (Nat × Nat))
    (h : get_child_pages api fuel = some (RetryResult.ok out, calls)) :
    ∃ rs : List ChildResp, rs ≠ [] ∧
      calls = (List.range rs.length).map (fun i => (100 * i, 100)) ∧
      (∀ i, i < rs.length →
        (retry_with_backoff (api (100 * i))).1
          = RetryResult.ok (rs.getD i ChildResp.unexpected)) ∧
      out = (rs.map batchOf).flatten ∧
      (∀ i, i + 1 < rs.length →
        continuesAfter 100 (rs.getD i ChildResp.unexpected) = true) ∧
      continuesAfter 100 (rs.getLast?.getD ChildResp.unexpected) = false := by
  obtain ⟨rs, hne, hcalls, hfetchAll, hout, hcont, hlast⟩ :=
    childPagesLoop_ok_spec (fun start => (retry_with_backoff (api start)).1) 100
      fuel 0 [] [] out calls h
  refine ⟨rs, hne, ?_, ?_, by simpa using hout, hcont, hlast⟩
  · simpa using hcalls
  · intro i hi
    simpa using hfetchAll i hi

/-- C7 witness: a single dict-form page with one result and no next link
terminates the listing after one fetch at `(0, 100)`. -/
theorem c7_pagination_witness :
    ∃ rs : List ChildResp, rs ≠ [] ∧
      ([(0, 100)] : List (Nat × Nat)) = (List.range rs.length).map (fun i => (100 * i, 100)) ∧
      (∀ i, i < rs.length →
        (retry_with_backoff (c7OnePage (100 * i))).1
          = RetryResult.ok (rs.getD i ChildResp.unexpected)) ∧
      ([⟨some "c1"⟩] : List Child) = (rs.map batchOf).flatten ∧
      (∀ i, i + 1 < rs.length →
        continuesAfter 100 (rs.getD i ChildResp.unexpected) = true) ∧
      continuesAfter 100 (rs.getLast?.getD ChildResp.unexpected) = false :=
  c7_pagination c7OnePage 2 [⟨some "c1"⟩] [(0, 100)] (by decide)

/-- Helper: members of `dropWhile` are members of the original list. -/
theorem mem_of_mem_dropWhile {γ : Type} {p : γ → Bool} :
    ∀ {l : List γ} {c : γ}, c ∈ l.dropWhile p → c ∈ l := by
  intro l
  induction l with
  | nil => intro c h; simp at h
  | cons a t ih =>
    intro c h
    rw [List.dropWhile_cons] at h
    by_cases hp : p a = true
    · rw [if_pos hp] at h
      exact List.mem_cons_of_mem a (ih h)
    · rw [if_neg hp] at h
      exact h

/-- Helper: members of `dropTrailingHyphens` are members of the list. -/
theorem mem_of_mem_dropTrailingHyphens {l : List Nat} {c : Nat}
    (h : c ∈ dropTrailingHyphens l) : c ∈ l := by
  unfold dropTrailingHyphens at h
  rw [List.mem_reverse] at h
  exact List.mem_reverse.mp (mem_of_mem_dropWhile h)

/-- Helper: members of `stripHyphens` are members of the list. -/
theorem mem_of_mem_stripHyphens {l : List Nat} {c : Nat} (h : c ∈ stripHyphens l) : c ∈ l := by
  unfold stripHyphens at h
  exact mem_of_mem_dropWhile (mem_of_mem_dropTrailingHyphens h)

/-- Helper: `dropWhile` never lengthens a list. -/
theorem length_dropWhile_le' {γ : Type} (p : γ → Bool) :
    ∀ l : List γ, (l.dropWhile p).length ≤ l.length := by
  intro l
  induction l with
  | nil => simp
  | cons a t ih =>
    rw [List.dropWhile_cons]
    by_cases hp : p a = true
    · rw [if_pos hp]
      simp only [List.length_cons]
      omega
    · rw [if_neg hp]

/-- Helper: `dropTrailingHyphens` never lengthens a list. -/
theorem length_dropTrailingHyphens_le (l : List Nat) :
    (dropTrailingHyphens l).length ≤ l.length := by
  unfold dropTrailingHyphens
  rw [List.length_reverse]
  calc (l.reverse.dropWhile (fun c => c == 45)).length
      ≤ l.reverse.length := length_dropWhile_le' _ _
    _ = l.length := by rw [List.length_reverse]

/-- Helper: every member of `collapseRuns l` is either the hyphen or a
non-hyphen-space member of `l`. -/
theorem mem_collapseRuns : ∀ (l : List Nat) (c : Nat), c ∈ collapseRuns l →
    c = 45 ∨ (c ∈ l ∧ isHyphenSpace c = false)
  | [], c => by simp [collapseRuns]
  | [a], c => by
      intro h
      rw [collapseRuns] at h
      by_cases ha : isHyphenSpace a = true
      · rw [if_pos ha] at h
        exact Or.inl (by simpa using h)
      · rw [if_neg ha] at h
        have hc : c = a := by simpa using h
        subst hc
        exact Or.inr ⟨by simp, by simpa using ha⟩
  | a :: b :: rest, c => by
      intro h
      rw [collapseRuns] at h
      by_cases ha : isHyphenSpace a = true
      · rw [if_pos ha] at h
        by_cases hb : isHyphenSpace b = true
        · rw [if_pos hb] at h
          rcases mem_collapseRuns (b :: rest) c h with h45 | ⟨hmem, hns⟩
          · exact Or.inl h45
          · exact Or.inr ⟨List.mem_cons_of_mem a hmem, hns⟩
        · rw [if_neg hb] at h
          rcases List.mem_cons.mp h with rfl | h'
          · exact Or.inl rfl
          · rcases mem_collapseRuns (b :: rest) c h' with h45 | ⟨hmem, hns⟩
            · exact Or.inl h45
            · exact Or.inr ⟨List.mem_cons_of_mem a hmem, hns⟩
      · rw [if_neg ha] at h
        rcases List.mem_cons.mp h with rfl | h'
        · exact Or.inr ⟨List.mem_cons_self c (b :: rest), by simpa using ha⟩
        · rcases mem_collapseRuns (b :: rest) c h' with h45 | ⟨hmem, hns⟩
          · exact Or.inl h45
          · exact Or.inr ⟨List.mem_cons_of_mem a hmem, hns⟩

/-- Helper: ASCII lowering never produces an uppercase letter. -/
theorem lowerCp_not_upper (d : Nat) : ¬(65 ≤ lowerCp d ∧ lowerCp d ≤ 90) := by
  unfold lowerCp
  split <;> omega

/-- Helper: the tail of the `slugify` pipeline (truncation and fallback)
keeps the length at most 100 and the characters inside the slug set,
provided every character entering it lies in the slug set. -/
theorem slugTail_bounds (t4 t5 : List Nat)
    (h4mem : ∀ c ∈ t4, inSlugSet c = true)
    (ht5 : t5 = if 100 < t4.length then dropTrailingHyphens (t4.take 100) else t4) :
    (if t5.isEmpty then untitledCp else t5).length ≤ 100 ∧
      (if t5.isEmpty then untitledCp else t5).all inSlugSet = true := by
  have h5len : t5.length ≤ 100 := by
    rw [ht5]
    split
    · calc (dropTrailingHyphens (t4.take 100)).length
          ≤ (t4.take 100).length := length_dropTrailingHyphens_le _
        _ ≤ 100 := by
            rw [List.length_take]
            omega
    · rename_i hgt
      omega
  have h5mem : ∀ c ∈ t5, inSlugSet c = true := by
    intro c hc
    rw [ht5] at hc
    apply h4mem
    revert hc
    split
    · intro hc
      exact List.take_subset _ _ (mem_of_mem_dropTrailingHyphens hc)
    · intro hc
      exact hc
  by_cases hemp : t5.isEmpty = true
  · rw [if_pos hemp]
    exact ⟨by decide, by decide⟩
  · rw [if_neg hemp]
    exact ⟨h5len, List.all_eq_true.mpr h5mem⟩

/-- C5 (amended): for every input, `slugify` yields at most 100 code
points, all inside `[a-z0-9_-]` — Python `\w` keeps the underscore, so the
claim's character set `[a-z0-9-]` must be widened by `_`. -/
theorem c5_slug_charset_and_length (nfkd : List Nat → List Nat) (text : List Nat) :
    (slugify nfkd text).length ≤ 100 ∧ (slugify nfkd text).all inSlugSet = true := by
  have h4mem : ∀ c ∈ stripHyphens (collapseRuns
      ((((nfkd text).filter isAsciiCp).map lowerCp).filter
        (fun c => isWordCp c || isSpaceCp c || c == 45))), inSlugSet c = true := by
    intro c hc
    rcases mem_collapseRuns _ c (mem_of_mem_stripHyphens hc) with rfl | ⟨hmem, hns⟩
    · decide
    · rw [List.mem_filter] at hmem
      obtain ⟨hmem2, hkeep⟩ := hmem
      rw [List.mem_map] at hmem2
      obtain ⟨d, _, rfl⟩ := hmem2
      have hup := lowerCp_not_upper d
      simp only [Bool.or_eq_true, beq_iff_eq, isWordCp, isSpaceCp, decide_eq_true_eq] at hkeep
      unfold isHyphenSpace at hns
      simp only [Bool.or_eq_false_iff, beq_eq_false_iff_ne, ne_eq, isSpaceCp,
        decide_eq_false_iff_not] at hns
      simp only [inSlugSet, decide_eq_true_eq]
      omega
  exact slugTail_bounds _ _ h4mem rfl

/-- Helper: appending a nonempty string on the right yields a nonempty
string. -/
theorem append_ne_empty (a b : String) (hb : b ≠ "") : a ++ b ≠ "" := by
  cases a with
  | mk da =>
    cases b with
    | mk db =>
      intro hab
      apply hb
      have h1 : (String.mk da ++ String.mk db).data = da ++ db := rfl
      rw [hab] at h1
      have h2 : da ++ db = ([] : List Char) := h1.symm
      have h3 : db = [] := (List.append_eq_nil.mp h2).2
      rw [h3]

/-- Helper: `orNone` never yields the empty string. -/
theorem nonEmptyVal_orNone (o : Option String) : nonEmptyVal (orNone o) = true := by
  cases o with
  | none => rfl
  | some v =>
    show nonEmptyVal (if v = "" then none else some v) = true
    by_cases hv : v = ""
    · rw [if_pos hv]
      rfl
    · rw [if_neg hv]
      simpa [nonEmptyVal] using hv

/-- Helper: the `url` value of an extracted metadata record is never the
empty string. -/
theorem nonEmptyVal_url (page : Page) (base_url : String) :
    nonEmptyVal (extract_metadata page base_url).url = true := by
  unfold extract_metadata
  cases hl : page.links.bind LinksObj.webui with
  | none => simp only [hl]; rfl
  | some w =>
    simp only [hl]
    by_cases hw : w = ""
    · rw [if_pos hw]
      rfl
    · rw [if_neg hw]
      simpa [nonEmptyVal] using append_ne_empty base_url w hw

/-- Helper: the `parent_id` value of an extracted metadata record is
never the empty string. -/
theorem nonEmptyVal_parent (page : Page) (base_url : String) :
    nonEmptyVal (extract_metadata page base_url).parent_id = true := by
  unfold extract_metadata
  cases ha : page.ancestors with
  | none => simp only [ha]; rfl
  | some l =>
    simp only [ha]
    by_cases hl : l = []
    · rw [if_pos hl]
      rfl
    · rw [if_neg hl]
      cases l.getLast? with
      | none => rfl
      | some a => exact nonEmptyVal_orNone a.id

/-- Helper: no value of an extracted metadata record is the empty
string. -/
theorem noEmptyValues_extract (page : Page) (base_url : String) :
    noEmptyValues (extract_metadata page base_url) = true := by
  unfold noEmptyValues
  have ht : nonEmptyVal (extract_metadata page base_url).title = true := nonEmptyVal_orNone _
  have hp : nonEmptyVal (extract_metadata page base_url).page_id = true := nonEmptyVal_orNone _
  have hs : nonEmptyVal (extract_metadata page base_url).space_key = true := nonEmptyVal_orNone _
  have hau : nonEmptyVal (extract_metadata page base_url).author = true := nonEmptyVal_orNone _
  have hc : nonEmptyVal (extract_metadata page base_url).created = true := nonEmptyVal_orNone _
  have hm : nonEmptyVal (extract_metadata page base_url).modified = true := nonEmptyVal_orNone _
  rw [ht, hp, hs, hau, hc, hm, nonEmptyVal_url page base_url, nonEmptyVal_parent page base_url]
  rfl

/-- C10: `extract_metadata` maps an empty-string source field to null
exactly as if the field were absent — no value of the returned record is
ever the empty string, and setting any source field (title, id, space
key, author display name, created date, version date, webui link, or the
last ancestor's id) to `""` yields the same record as omitting it. -/
theorem c10_empty_fields_as_absent (page : Page) (base_url : String)
    (cb : Option CreatedBy) (cd : Option String) (anc : List Ancestor) :
    noEmptyValues (extract_metadata page base_url) = true ∧
    extract_metadata { page with title := some "" } base_url
      = extract_metadata { page with title := none } base_url ∧
    extract_metadata { page with id := some "" } base_url
      = extract_metadata { page with id := none } base_url ∧
    extract_metadata { page with space := some ⟨some ""⟩ } base_url
      = extract_metadata { page with space := some ⟨none⟩ } base_url ∧
    extract_metadata { page with history := some ⟨some ⟨some ""⟩, cd⟩ } base_url
      = extract_metadata { page with history := some ⟨some ⟨none⟩, cd⟩ } base_url ∧
    extract_metadata { page with history := some ⟨cb, some ""⟩ } base_url
      = extract_metadata { page with history := some ⟨cb, none⟩ } base_url ∧
    extract_metadata { page with version := some ⟨some ""⟩ } base_url
      = extract_metadata { page with version := some ⟨none⟩ } base_url ∧
    extract_metadata { page with links := some ⟨some ""⟩ } base_url
      = extract_metadata { page with links := some ⟨none⟩ } base_url ∧
    extract_metadata { page with ancestors := some (anc ++ [⟨some ""⟩]) } base_url
      = extract_metadata { page with ancestors := some (anc ++ [⟨none⟩]) } base_url := by
  refine ⟨noEmptyValues_extract page base_url, rfl, rfl, rfl, rfl, rfl, rfl, rfl, ?_⟩
  simp [extract_metadata, orNone, List.getLast?_concat]

end ConfluenceMd
